import Mathlib

/-!
Verification of the financial-series extraction and scoring core.

The development shallowly embeds the two core modules:
* the Scoring Engine (`calculate_score` and its helpers), which evaluates
  nine fixed-weight investment rules over a `FinancialData` record, and
* the scraper core (Value Normalizer `parseValue`, Header Resolver
  `buildHeaderMap`, Table Locator `findTable`, Series Builder
  `collectRows`/`buildSeries`).

Machine floats are modeled as exact rationals (`ℚ`); the least-squares
slope is the closed-form ordinary-least-squares coefficient that the
source computes via a degree-1 polynomial fit.
-/

namespace Kabu

/-- The financial series record: ticker, fiscal-year labels, and the nine
parallel metric sequences (floats modeled as `ℚ`). -/
structure FinancialData where
  ticker : String
  fiscal_years : List String
  revenue : List ℚ
  eps : List ℚ
  total_assets : List ℚ
  operating_cf : List ℚ
  cash_equivalents : List ℚ
  roe : List ℚ
  equity_ratio : List ℚ
  dividend_ps : List ℚ
  dividend_payout_ratio : List ℚ
deriving Repr, DecidableEq

/-- The nine-entry score breakdown (the Python code keeps it as a dict with
these nine fixed keys). -/
structure Breakdown where
  revenue : ℚ
  eps : ℚ
  total_assets : ℚ
  operating_cf : ℚ
  cash_equivalents : ℚ
  roe : ℚ
  equity_ratio : ℚ
  dividend_ps : ℚ
  dividend_payout_ratio : ℚ
deriving Repr, DecidableEq

/-- Sum of the nine breakdown entries (`sum(breakdown.values())`). -/
def Breakdown.total (b : Breakdown) : ℚ :=
  b.revenue + b.eps + b.total_assets + b.operating_cf + b.cash_equivalents +
    b.roe + b.equity_ratio + b.dividend_ps + b.dividend_payout_ratio

/-- The all-zero breakdown returned on insufficient history. -/
def Breakdown.zero : Breakdown := ⟨0, 0, 0, 0, 0, 0, 0, 0, 0⟩

/-- The score result: ticker, total score, breakdown and the input series. -/
structure StockScore where
  ticker : String
  total_score : ℚ
  breakdown : Breakdown
  financial_data : FinancialData
deriving Repr, DecidableEq

/-- Function `get_slope` of `scoring.py`: ordinary-least-squares slope of the values
against positions `0..n-1` (the coefficient `np.polyfit(x, y, 1)` returns),
`0` when fewer than two values. -/
def get_slope (values : List ℚ) : ℚ :=
  if values.length < 2 then 0
  else
    let n : ℚ := values.length
    let idx : List ℚ := (List.range values.length).map (fun i => (i : ℚ))
    let sx : ℚ := idx.sum
    let sy : ℚ := values.sum
    let sxy : ℚ := ((idx.zip values).map (fun p => p.1 * p.2)).sum
    let sxx : ℚ := (idx.map (fun x => x * x)).sum
    (n * sxy - sx * sy) / (n * sxx - sx * sx)

/-- Function `is_right_shoulder_up` of `scoring.py`: the slope is strictly positive. -/
def is_right_shoulder_up (values : List ℚ) : Bool :=
  0 < get_slope values

/-- The dividend non-decrease loop of `scoring.py` (lines 88-92):
`values[i] >= values[i-1]` for every consecutive pair. -/
def nonDecreasing : List ℚ → Bool
  | [] => true
  | [_] => true
  | a :: b :: t => a ≤ b && nonDecreasing (b :: t)

/-- The nine rule evaluations of `calculate_score` (the `breakdown` dict
built by the nine if-statements of `scoring.py`). -/
def scoreBreakdown (data : FinancialData) : Breakdown :=
  { revenue := if is_right_shoulder_up data.revenue then 15 else 0
    eps := if is_right_shoulder_up data.eps then 15 else 0
    total_assets := if is_right_shoulder_up data.total_assets then 10 else 0
    operating_cf :=
      if data.operating_cf.all (fun v => 0 < v) &&
          is_right_shoulder_up data.operating_cf then 10 else 0
    cash_equivalents :=
      if is_right_shoulder_up data.cash_equivalents then 10 else 0
    roe := if data.roe.all (fun v => 7 ≤ v) then 10 else 0
    equity_ratio := if data.equity_ratio.all (fun v => 50 ≤ v) then 10 else 0
    dividend_ps :=
      if nonDecreasing data.dividend_ps &&
          is_right_shoulder_up data.dividend_ps then 10 else 0
    dividend_payout_ratio :=
      if data.dividend_payout_ratio.all (fun v => v ≤ 40) then 10 else 0 }

/-- Function `calculate_score` of `scoring.py`: the nine-rule scoring engine. -/
def calculate_score (data : FinancialData) : StockScore :=
  if data.fiscal_years.length < 2 then
    { ticker := data.ticker
      total_score := 0
      breakdown := Breakdown.zero
      financial_data := data }
  else
    { ticker := data.ticker
      total_score := (scoreBreakdown data).total
      breakdown := scoreBreakdown data
      financial_data := data }

/-! ## Scraper core: strings and substring matching -/

/-- Here `beginsWith needle hay` states that `needle` is an initial segment of `hay`. -/
def beginsWith : List Char → List Char → Bool
  | [], _ => true
  | _ :: _, [] => false
  | a :: as, b :: bs => a == b && beginsWith as bs

/-- Here `hasSub hay needle` states that `needle` occurs as a contiguous run inside `hay`
(the semantics of the Python `needle in hay` substring test). -/
def hasSub (hay needle : List Char) : Bool :=
  match hay with
  | [] => beginsWith needle []
  | c :: t => beginsWith needle (c :: t) || hasSub t needle

/-- Here `strIn needle hay` is the Python substring test `needle in hay`. -/
def strIn (needle hay : String) : Bool := hasSub hay.toList needle.toList

/-- Removing every occurrence of the character `c`
(the Python `s.replace(c, "")` for a one-character pattern). -/
def removeChar (c : Char) (s : List Char) : List Char := s.filter (fun x => x ≠ c)

/-! ## Header Resolver (`scraper.py`, the `aliases` table and the loop at
lines 95-99) -/

/-- The nine metric identifiers (the keys of the `aliases` dict). -/
inductive Metric
  | revenue | eps | total_assets | operating_cf | cash_equivalents
  | roe | equity_ratio | dividend_ps | dividend_payout_ratio
deriving Repr, DecidableEq

/-- The fixed iteration order of the metric list (insertion order of the
`aliases` dict in `scraper.py`). -/
def metricOrder : List Metric :=
  [.revenue, .eps, .total_assets, .operating_cf, .cash_equivalents,
   .roe, .equity_ratio, .dividend_ps, .dividend_payout_ratio]

/-- The alias substrings of each metric (`aliases` in `scraper.py`). -/
def aliases : Metric → List String
  | .revenue => ["売上高", "営業収益", "経常収益", "売上"]
  | .eps => ["EPS", "一株利益", "基本的1株当たり当期利益", "一株当たり当期純利益"]
  | .total_assets => ["総資産", "資産合計"]
  | .operating_cf => ["営業CF", "営業キャッシュフロー", "営業活動によるキャッシュ・フロー",
                      "営業活動によるキャッシュフロー"]
  | .cash_equivalents => ["現金等", "現金残高", "現金及び現金同等物", "現金及び預金"]
  | .roe => ["ROE", "自己資本利益率", "親会社所有者帰属持分当期利益率", "当期純利益率"]
  | .equity_ratio => ["自己資本比率", "親会社所有者帰属持分比率", "資本比率"]
  | .dividend_ps => ["配当", "一株配当", "1株当たり配当額"]
  | .dividend_payout_ratio => ["配当性向", "配当性向(%)"]

/-- A metric matches a header cell when any of its aliases is a substring of
the cell text (`any(a in col_name for a in alias_list)`). -/
def metricMatches (m : Metric) (c : String) : Bool :=
  (aliases m).any (fun a => strIn a c)

/-- The header map (the Python `header_map` dict): metric/column-index
pairs in insertion order. -/
abbrev HeaderMap := List (Metric × ℕ)

/-- Dict lookup in the header map (`header_map[target]`, `target in
header_map`). -/
def HeaderMap.find : HeaderMap → Metric → Option ℕ
  | [], _ => none
  | (t, i) :: rest, m => if m = t then some i else HeaderMap.find rest m

/-- One iteration of the inner metric loop: skip a metric already in the
map (`if target in header_map: continue`), bind a matching one. -/
def bindStep (idx : ℕ) (c : String) (h : HeaderMap) (t : Metric) : HeaderMap :=
  if (h.find t).isSome then h
  else if metricMatches t c then h ++ [(t, idx)] else h

/-- The inner loop over the metric list for one header cell: each metric not
yet bound is bound to this column when an alias matches. -/
def stepCell (hm : HeaderMap) (idx : ℕ) (c : String) : HeaderMap :=
  metricOrder.foldl (bindStep idx c) hm

/-- The first column index (from the left) whose header text matches the
metric, used to characterize the Header Resolver. -/
def firstMatch (m : Metric) : List String → Option ℕ
  | [] => none
  | c :: cs => if metricMatches m c then some 0 else (firstMatch m cs).map (· + 1)

/-- The outer loop over the enumerated header cells. -/
def resolveFrom (hm : HeaderMap) (idx : ℕ) : List String → HeaderMap
  | [] => hm
  | c :: cs => resolveFrom (stepCell hm idx c) (idx + 1) cs

/-- The Header Resolver: the column-index map built from a header row. -/
def buildHeaderMap (cols : List String) : HeaderMap :=
  resolveFrom [] 0 cols

/-! ## Table Locator (`scraper.py` lines 83-103) -/

/-- A table (rows of cell texts) qualifies when it has a first row and that
row contains the year-axis marker `"年度"` as a cell
(`if "年度" in cols` over the list of first-row cell texts). -/
def qualifies : List (List String) → Bool
  | [] => false
  | r :: _ => r.contains "年度"

/-- The first row of a table (empty when the table has no rows). -/
def headerCols (t : List (List String)) : List String := t.headD []

/-- The Table Locator: scan the document tables in order, select the first
qualifying one and resolve its header; raise when none qualifies
(`raise ValueError("Financial table not found")`, the spec's
`TableNotFoundError`). -/
def findTable :
    List (List (List String)) → Except String (List (List String) × HeaderMap)
  | [] => .error "Financial table not found"
  | t :: ts =>
    if qualifies t then .ok (t, buildHeaderMap (headerCols t)) else findTable ts

/-! ## Value Normalizer (`IrBankScraper._parse_value`) -/

/-- Numeric value of a decimal digit character. -/
def digVal (c : Char) : ℕ := c.toNat - 48

/-- Value of a digit run read most-significant first. -/
def natOfDigits (ds : List Char) : ℕ := ds.foldl (fun n c => 10 * n + digVal c) 0

/-- Fractional value of the digit run after the decimal point. -/
def fracOfDigits (ds : List Char) : ℚ := (natOfDigits ds : ℚ) / (10 : ℚ) ^ ds.length

/-- An optionally signed nonempty digit run, as an integer; `none` on any
other shape. -/
def signDigits : List Char → Option ℤ
  | [] => none
  | x :: d =>
    if x = '+' then
      if !d.isEmpty && d.all Char.isDigit then some ((natOfDigits d : ℤ)) else none
    else if x = '-' then
      if !d.isEmpty && d.all Char.isDigit then some (-(natOfDigits d : ℤ)) else none
    else if (x :: d).all Char.isDigit then some ((natOfDigits (x :: d) : ℤ)) else none

/-- Exponent suffix of a float literal: empty means exponent `0`, otherwise
`e`/`E` followed by an optionally signed digit run; anything else fails
(models the tail of Python `float()` literal syntax). -/
def expPart : List Char → Option ℤ
  | [] => some 0
  | c :: r => if c = 'e' ∨ c = 'E' then signDigits r else none

/-- Continue the parse after the integer digit run `ip`: an optional
fractional part, then the exponent; at least one mantissa digit required. -/
def mantissaCont (ip : List Char) : List Char → Option ℚ
  | c :: r =>
    if c = '.' then
      let fp := r.takeWhile Char.isDigit
      let rest := r.dropWhile Char.isDigit
      if ip.isEmpty && fp.isEmpty then none
      else (expPart rest).map (fun e => ((natOfDigits ip : ℚ) + fracOfDigits fp) * (10 : ℚ) ^ e)
    else if ip.isEmpty then none
    else (expPart (c :: r)).map (fun e => (natOfDigits ip : ℚ) * (10 : ℚ) ^ e)
  | [] =>
    if ip.isEmpty then none
    else (expPart []).map (fun e => (natOfDigits ip : ℚ) * (10 : ℚ) ^ e)

/-- Unsigned float literal: integer digits, optional point and fraction,
optional exponent, nothing else. -/
def parseUnsigned (s : List Char) : Option ℚ :=
  mantissaCont (s.takeWhile Char.isDigit) (s.dropWhile Char.isDigit)

/-- The Python `float(str)` conversion on the decimal-literal forms
(optional sign, digits, optional point, optional exponent); `none` models
the `ValueError` raised on any other input. -/
def pyFloatChars : List Char → Option ℚ
  | c :: r =>
    if c = '+' then parseUnsigned r
    else if c = '-' then (parseUnsigned r).map Neg.neg
    else parseUnsigned (c :: r)
  | [] => parseUnsigned []

/-- The characters that can occur in a parseable float literal. -/
def floatChar (c : Char) : Bool :=
  c.isDigit || c == '+' || c == '-' || c == '.' || c == 'e' || c == 'E'

/-- Thousands-separator commas stripped from the token
(`text.replace(",", "")`). -/
def commaFree (text : String) : List Char := removeChar ',' text.toList

/-- Unit-glyph stripping with its multiplier, matched by substring presence
in the priority order trillion, hundred-million, ten-thousand, percent;
exactly the matched glyph is removed. -/
def unitStrip (c0 : List Char) : List Char × ℚ :=
  if hasSub c0 ['兆'] then (removeChar '兆' c0, 1000000000000)
  else if hasSub c0 ['億'] then (removeChar '億' c0, 100000000)
  else if hasSub c0 ['万'] then (removeChar '万' c0, 10000)
  else if hasSub c0 ['%'] then (removeChar '%' c0, 1)
  else (c0, 1)

/-- Method `IrBankScraper._parse_value`: sentinel dashes and the empty token give
`0.0`; otherwise strip commas and one unit glyph, parse the remainder, and
return `0.0` when the parse fails. -/
def parse_value (text : String) : ℚ :=
  if text = "" || text = "-" || text = "－" then 0
  else
    match pyFloatChars (unitStrip (commaFree text)).1 with
    | some v => v * (unitStrip (commaFree text)).2
    | none => 0

/-! ## Series Builder (`scraper.py` lines 106-151) -/

/-- The Python expression `max(header_map.values()) if header_map else 0`. -/
def maxIdx (hm : HeaderMap) : ℕ :=
  (hm.map Prod.snd).foldl max 0

/-- The value emitted for one metric on one data row: the normalized cell at
the bound index, or `0.0` when the metric is unbound. -/
def rowValue (hm : HeaderMap) (cols : List String) (m : Metric) : ℚ :=
  match hm.find m with
  | some i => parse_value (cols.getD i "")
  | none => 0

/-- The row loop: rows with at most `maxIdx` cells are skipped entirely;
each kept row contributes its first cell as the year label and one value per
metric, in row order. -/
def collectRows (hm : HeaderMap) :
    List (List String) → List String × (Metric → List ℚ)
  | [] => ([], fun _ => [])
  | r :: rs =>
    if r.length ≤ maxIdx hm then collectRows hm rs
    else
      let rest := collectRows hm rs
      (r.headD "" :: rest.1, fun m => rowValue hm r m :: rest.2 m)

/-- The Series Builder: collect the data rows, then reverse the year labels
and every metric sequence (newest-first source order to oldest-first). -/
def buildSeries (ticker : String) (hm : HeaderMap)
    (rows : List (List String)) : FinancialData :=
  let c := collectRows hm rows
  { ticker := ticker
    fiscal_years := c.1.reverse
    revenue := (c.2 Metric.revenue).reverse
    eps := (c.2 Metric.eps).reverse
    total_assets := (c.2 Metric.total_assets).reverse
    operating_cf := (c.2 Metric.operating_cf).reverse
    cash_equivalents := (c.2 Metric.cash_equivalents).reverse
    roe := (c.2 Metric.roe).reverse
    equity_ratio := (c.2 Metric.equity_ratio).reverse
    dividend_ps := (c.2 Metric.dividend_ps).reverse
    dividend_payout_ratio := (c.2 Metric.dividend_payout_ratio).reverse }

/-- The extraction pipeline on an already-parsed document: locate the table,
resolve its header, and build the series from its data rows (the header row
is skipped). -/
def extract (ticker : String) (tables : List (List (List String))) :
    Except String FinancialData :=
  match findTable tables with
  | .error e => .error e
  | .ok (t, hm) => .ok (buildSeries ticker hm (t.drop 1))

/-- Selector for the metric sequence of a `FinancialData` named by a
`Metric`. -/
def FinancialData.metric (d : FinancialData) : Metric → List ℚ
  | .revenue => d.revenue
  | .eps => d.eps
  | .total_assets => d.total_assets
  | .operating_cf => d.operating_cf
  | .cash_equivalents => d.cash_equivalents
  | .roe => d.roe
  | .equity_ratio => d.equity_ratio
  | .dividend_ps => d.dividend_ps
  | .dividend_payout_ratio => d.dividend_payout_ratio

/-! ## Concrete inputs used by witnesses -/

/-- A one-year series used to exercise the insufficient-history rule. -/
def exShort : FinancialData :=
  { ticker := "7203"
    fiscal_years := ["2023"]
    revenue := [100]
    eps := [5]
    total_assets := [1000]
    operating_cf := [10]
    cash_equivalents := [50]
    roe := [8]
    equity_ratio := [60]
    dividend_ps := [2]
    dividend_payout_ratio := [30] }

/-- A five-year series that is exactly flat on every trend metric and sits
exactly at the threshold on every threshold metric. -/
def exFlat : FinancialData :=
  { ticker := "8306"
    fiscal_years := ["2019", "2020", "2021", "2022", "2023"]
    revenue := [5, 5, 5, 5, 5]
    eps := [3, 3, 3, 3, 3]
    total_assets := [1000, 1000, 1000, 1000, 1000]
    operating_cf := [4, 4, 4, 4, 4]
    cash_equivalents := [2, 2, 2, 2, 2]
    roe := [7, 7, 7]
    equity_ratio := [50, 50, 50]
    dividend_ps := [6, 6, 6, 6, 6]
    dividend_payout_ratio := [40, 40, 40] }

/-- A two-year series whose threshold metric sequences are all empty. -/
def exEmptyThresholds : FinancialData :=
  { ticker := "9984"
    fiscal_years := ["2022", "2023"]
    revenue := [1, 2]
    eps := [1, 2]
    total_assets := [1, 2]
    operating_cf := [1, 2]
    cash_equivalents := [1, 2]
    roe := []
    equity_ratio := []
    dividend_ps := [1, 2]
    dividend_payout_ratio := [] }

/-- A two-table document: the first table lacks the year-axis marker, the
second carries it. -/
def exTables : List (List (List String)) :=
  [[["銘柄", "値"]], [["年度", "売上高", "EPS"], ["2023", "100", "5"]]]

/-- A header map binding only revenue (to column 1), leaving the other
eight metrics unbound. -/
def exHeaderMap : HeaderMap := [(Metric.revenue, 1)]

/-- Data rows containing one malformed (too short) row. -/
def exRows : List (List String) := [["2023", "100"], ["x"], ["2022", "90"]]

/-! ## Helper lemmas -/

lemma all_floatChar_of_digits {d : List Char} (h : d.all Char.isDigit = true) :
    d.all floatChar = true := by
  rw [List.all_eq_true] at h ⊢
  intro x hx
  simp [floatChar, h x hx]

lemma signDigits_all {s : List Char} {e : ℤ} (h : signDigits s = some e) :
    s.all floatChar = true := by
  match s with
  | [] => simp [signDigits] at h
  | x :: d =>
    rw [signDigits] at h
    split_ifs at h with h1 h2 h3 h4 h5
    · subst h1
      simp only [Bool.and_eq_true] at h2
      simp [floatChar, all_floatChar_of_digits h2.2]
    · subst h3
      simp only [Bool.and_eq_true] at h4
      simp [floatChar, all_floatChar_of_digits h4.2]
    · exact all_floatChar_of_digits h5

lemma expPart_all {s : List Char} {e : ℤ} (h : expPart s = some e) :
    s.all floatChar = true := by
  match s with
  | [] => rfl
  | c :: r =>
    rw [expPart] at h
    split_ifs at h with hc
    rcases hc with hc | hc <;> subst hc <;>
      simp [floatChar, signDigits_all h]

lemma mantissaCont_all {ip s : List Char} {v : ℚ} (h : mantissaCont ip s = some v) :
    s.all floatChar = true := by
  match s with
  | [] => rfl
  | c :: r =>
    rw [mantissaCont] at h
    split_ifs at h with hdot hemp
    · subst hdot
      dsimp only at h
      split_ifs at h with hemp
      obtain ⟨e, he, _⟩ := Option.map_eq_some'.mp h
      have hr : r.all floatChar = true := by
        have hsplit : r.takeWhile Char.isDigit ++ r.dropWhile Char.isDigit = r :=
          List.takeWhile_append_dropWhile _ _
        rw [← hsplit, List.all_append, Bool.and_eq_true]
        exact ⟨all_floatChar_of_digits List.all_takeWhile, expPart_all he⟩
      simp [floatChar, hr]
    · obtain ⟨e, he, _⟩ := Option.map_eq_some'.mp h
      exact expPart_all he

lemma parseUnsigned_all {s : List Char} {v : ℚ} (h : parseUnsigned s = some v) :
    s.all floatChar = true := by
  rw [parseUnsigned] at h
  have hsplit : s.takeWhile Char.isDigit ++ s.dropWhile Char.isDigit = s :=
    List.takeWhile_append_dropWhile _ _
  rw [← hsplit, List.all_append, Bool.and_eq_true]
  exact ⟨all_floatChar_of_digits List.all_takeWhile, mantissaCont_all h⟩

lemma pyFloatChars_all {s : List Char} {v : ℚ} (h : pyFloatChars s = some v) :
    s.all floatChar = true := by
  match s with
  | [] => rfl
  | c :: r =>
    rw [pyFloatChars] at h
    split_ifs at h with h1 h2
    · subst h1; simp [floatChar, parseUnsigned_all h]
    · subst h2
      obtain ⟨w, hw, _⟩ := Option.map_eq_some'.mp h
      simp [floatChar, parseUnsigned_all hw]
    · exact parseUnsigned_all h

lemma pyFloatChars_none_of_mem {s : List Char} {c : Char} (hc : c ∈ s)
    (hf : floatChar c = false) : pyFloatChars s = none := by
  cases hps : pyFloatChars s with
  | none => rfl
  | some v =>
    have := pyFloatChars_all hps
    rw [List.all_eq_true] at this
    rw [this c hc] at hf
    exact absurd hf (by simp)

lemma mem_of_hasSub_singleton {l : List Char} {c : Char}
    (h : hasSub l [c] = true) : c ∈ l := by
  induction l with
  | nil => simp [hasSub, beginsWith] at h
  | cons x t ih =>
    rw [hasSub] at h
    rcases Bool.or_eq_true_iff.mp h with h | h
    · simp only [beginsWith, Bool.and_eq_true] at h
      have : c = x := by simpa using h.1
      simp [this]
    · exact List.mem_cons_of_mem _ (ih h)

lemma find_append_single (h : HeaderMap) (t : Metric) (idx : ℕ) (m : Metric) :
    HeaderMap.find (h ++ [(t, idx)]) m =
      match h.find m with
      | some v => some v
      | none => if m = t then some idx else none := by
  induction h with
  | nil => simp [HeaderMap.find]
  | cons p rest ih =>
    obtain ⟨pt, pi⟩ := p
    by_cases hmp : m = pt
    · simp [HeaderMap.find, hmp]
    · simp only [List.cons_append, HeaderMap.find, if_neg hmp]
      exact ih

lemma bindStep_find_ne (idx : ℕ) (c : String) (h : HeaderMap) (t m : Metric)
    (hne : m ≠ t) : (bindStep idx c h t).find m = h.find m := by
  rw [bindStep]
  split_ifs
  · rfl
  · rw [find_append_single]
    cases h.find m with
    | none => simp [hne]
    | some v => rfl
  · rfl

lemma bindStep_find_self (idx : ℕ) (c : String) (h : HeaderMap) (t : Metric) :
    (bindStep idx c h t).find t =
      match h.find t with
      | some v => some v
      | none => if metricMatches t c then some idx else none := by
  cases hf : h.find t with
  | some v =>
    rw [bindStep]
    simp [hf]
  | none =>
    rw [bindStep, hf]
    simp only [Option.isSome_none, Bool.false_eq_true, if_false]
    by_cases hmc : metricMatches t c
    · rw [if_pos hmc, find_append_single, hf]
      simp [hmc]
    · rw [if_neg hmc]
      simp [hf, hmc]

lemma foldl_bindStep_not_mem (idx : ℕ) (c : String) {L : List Metric} {m : Metric}
    (hnm : m ∉ L) (hm : HeaderMap) :
    (L.foldl (bindStep idx c) hm).find m = hm.find m := by
  induction L generalizing hm with
  | nil => rfl
  | cons t ts ih =>
    rw [List.foldl_cons]
    have hne : m ≠ t := fun h => hnm (h ▸ List.mem_cons_self t ts)
    rw [ih (fun h => hnm (List.mem_cons_of_mem _ h)), bindStep_find_ne _ _ _ _ _ hne]

lemma foldl_bindStep_mem (idx : ℕ) (c : String) {L : List Metric} {m : Metric}
    (hnd : L.Nodup) (hmem : m ∈ L) (hm : HeaderMap) :
    (L.foldl (bindStep idx c) hm).find m =
      match hm.find m with
      | some v => some v
      | none => if metricMatches m c then some idx else none := by
  induction L generalizing hm with
  | nil => exact absurd hmem (List.not_mem_nil m)
  | cons t ts ih =>
    rw [List.foldl_cons]
    rcases List.mem_cons.mp hmem with h1 | h1
    · subst h1
      have hnin : m ∉ ts := (List.nodup_cons.mp hnd).1
      rw [foldl_bindStep_not_mem _ _ hnin, bindStep_find_self]
    · have hne : m ≠ t := fun h => (List.nodup_cons.mp hnd).1 (h ▸ h1)
      rw [ih (List.nodup_cons.mp hnd).2 h1, bindStep_find_ne _ _ _ _ _ hne]

lemma mem_metricOrder (m : Metric) : m ∈ metricOrder := by
  cases m <;> simp [metricOrder]

lemma metricOrder_nodup : metricOrder.Nodup := by
  simp [metricOrder]

lemma stepCell_find (hm : HeaderMap) (idx : ℕ) (c : String) (m : Metric) :
    (stepCell hm idx c).find m =
      match hm.find m with
      | some v => some v
      | none => if metricMatches m c then some idx else none := by
  rw [stepCell]
  exact foldl_bindStep_mem idx c metricOrder_nodup (mem_metricOrder m) hm

lemma resolveFrom_nilE (hm : HeaderMap) (idx : ℕ) :
    resolveFrom hm idx [] = hm := rfl

lemma resolveFrom_consE (hm : HeaderMap) (idx : ℕ) (c : String) (cs : List String) :
    resolveFrom hm idx (c :: cs) = resolveFrom (stepCell hm idx c) (idx + 1) cs := rfl

lemma resolveFrom_find (cols : List String) (hm : HeaderMap) (idx : ℕ) (m : Metric) :
    (resolveFrom hm idx cols).find m =
      match hm.find m with
      | some v => some v
      | none => (firstMatch m cols).map (· + idx) := by
  induction cols generalizing hm idx with
  | nil =>
    rw [resolveFrom_nilE, firstMatch]
    cases hm.find m <;> simp
  | cons c cs ih =>
    rw [resolveFrom_consE, ih, stepCell_find, firstMatch]
    cases hm.find m with
    | some v => rfl
    | none =>
      by_cases hc : metricMatches m c
      · rw [if_pos hc, if_pos hc]
        simp
      · rw [if_neg hc, if_neg hc]
        cases firstMatch m cs with
        | none => rfl
        | some k =>
          simp only [Option.map_some', Option.some.injEq]
          omega

lemma buildHeaderMap_find (cols : List String) (m : Metric) :
    (buildHeaderMap cols).find m = firstMatch m cols := by
  rw [buildHeaderMap, resolveFrom_find]
  show (firstMatch m cols).map (· + 0) = firstMatch m cols
  cases firstMatch m cols <;> simp

lemma firstMatch_eq_some_iff (m : Metric) (cols : List String) (i : ℕ) :
    firstMatch m cols = some i ↔
      (∃ c, cols[i]? = some c ∧ metricMatches m c = true ∧
        ∀ j : ℕ, j < i → ∀ c2, cols[j]? = some c2 → metricMatches m c2 = false) := by
  induction cols generalizing i with
  | nil => simp [firstMatch]
  | cons c cs ih =>
    rw [firstMatch]
    by_cases hc : metricMatches m c
    · rw [if_pos hc]
      constructor
      · intro h
        have hi : i = 0 := (Option.some.inj h).symm
        subst hi
        exact ⟨c, by simp, hc, by omega⟩
      · rintro ⟨c2, hi2, hm2, hmin⟩
        match i with
        | 0 => rfl
        | k + 1 =>
          have := hmin 0 (by omega) c (by simp)
          rw [hc] at this
          exact absurd this (by simp)
    · rw [if_neg hc]
      constructor
      · intro h
        obtain ⟨k, hk, hik⟩ := Option.map_eq_some'.mp h
        subst hik
        obtain ⟨c2, hi2, hm2, hmin⟩ := (ih k).mp hk
        refine ⟨c2, by simpa using hi2, hm2, ?_⟩
        intro j hj u hu
        match j with
        | 0 =>
          simp at hu
          rw [← hu]
          simp [hc]
        | j + 1 =>
          exact hmin j (by omega) u (by simpa using hu)
      · rintro ⟨c2, hi2, hm2, hmin⟩
        match i with
        | 0 =>
          simp at hi2
          rw [← hi2] at hm2
          exact absurd hm2 (by simp [hc])
        | k + 1 =>
          have hfm : firstMatch m cs = some k := by
            apply (ih k).mpr
            refine ⟨c2, by simpa using hi2, hm2, ?_⟩
            intro j hj u hu
            exact hmin (j + 1) (by omega) u (by simpa using hu)
          rw [hfm]
          rfl

lemma collectRows_nilE (hm : HeaderMap) : collectRows hm [] = ([], fun _ => []) := rfl

lemma collectRows_consE (hm : HeaderMap) (r : List String) (rs : List (List String)) :
    collectRows hm (r :: rs) =
      if r.length ≤ maxIdx hm then collectRows hm rs
      else ((r.headD "") :: (collectRows hm rs).1,
        fun m => rowValue hm r m :: (collectRows hm rs).2 m) := rfl

lemma collectRows_eq (hm : HeaderMap) (rows : List (List String)) :
    (collectRows hm rows).1 =
      (rows.filter (fun r => decide (maxIdx hm < r.length))).map (fun r => r.headD "") ∧
    ∀ m, (collectRows hm rows).2 m =
      (rows.filter (fun r => decide (maxIdx hm < r.length))).map
        (fun r => rowValue hm r m) := by
  induction rows with
  | nil => exact ⟨rfl, fun m => rfl⟩
  | cons r rs ih =>
    rw [collectRows_consE]
    by_cases hle : r.length ≤ maxIdx hm
    · have hf : decide (maxIdx hm < r.length) = false := by
        simp
        omega
      rw [if_pos hle, List.filter_cons_of_neg (by simp [hf])]
      exact ih
    · have hf : decide (maxIdx hm < r.length) = true := by
        simp
        omega
      rw [if_neg hle, List.filter_cons_of_pos (by simp [hf])]
      constructor
      · simp only [List.map_cons]
        rw [ih.1]
      · intro m
        simp only [List.map_cons]
        rw [ih.2 m]

lemma buildSeries_metric (ticker : String) (hm : HeaderMap) (rows : List (List String))
    (m : Metric) :
    (buildSeries ticker hm rows).metric m = ((collectRows hm rows).2 m).reverse := by
  cases m <;> rfl

lemma buildSeries_years (ticker : String) (hm : HeaderMap) (rows : List (List String)) :
    (buildSeries ticker hm rows).fiscal_years = (collectRows hm rows).1.reverse := rfl

lemma rsu_false_of_slope_nonpos {l : List ℚ} (h : get_slope l ≤ 0) :
    is_right_shoulder_up l = false := by
  simp only [is_right_shoulder_up, decide_eq_false_iff_not, not_lt]
  exact h

lemma iteQ_or (c : Prop) [Decidable c] (k : ℚ) :
    (if c then k else 0) = 0 ∨ (if c then k else 0) = k := by
  split_ifs <;> simp

lemma iteQ_nonneg (c : Prop) [Decidable c] (k : ℚ) (hk : 0 ≤ k) :
    0 ≤ (if c then k else 0) := by
  split_ifs <;> simp [hk]

lemma iteQ_le (c : Prop) [Decidable c] (k : ℚ) (hk : 0 ≤ k) :
    (if c then k else 0) ≤ k := by
  split_ifs <;> simp [hk]

/-! ## Claim theorems: Scoring Engine -/

lemma sb_vals (d : FinancialData) :
    ((scoreBreakdown d).revenue = 0 ∨ (scoreBreakdown d).revenue = 15) ∧
    ((scoreBreakdown d).eps = 0 ∨ (scoreBreakdown d).eps = 15) ∧
    ((scoreBreakdown d).total_assets = 0 ∨ (scoreBreakdown d).total_assets = 10) ∧
    ((scoreBreakdown d).operating_cf = 0 ∨ (scoreBreakdown d).operating_cf = 10) ∧
    ((scoreBreakdown d).cash_equivalents = 0 ∨ (scoreBreakdown d).cash_equivalents = 10) ∧
    ((scoreBreakdown d).roe = 0 ∨ (scoreBreakdown d).roe = 10) ∧
    ((scoreBreakdown d).equity_ratio = 0 ∨ (scoreBreakdown d).equity_ratio = 10) ∧
    ((scoreBreakdown d).dividend_ps = 0 ∨ (scoreBreakdown d).dividend_ps = 10) ∧
    ((scoreBreakdown d).dividend_payout_ratio = 0 ∨
      (scoreBreakdown d).dividend_payout_ratio = 10) :=
  ⟨iteQ_or _ _, iteQ_or _ _, iteQ_or _ _, iteQ_or _ _, iteQ_or _ _, iteQ_or _ _, iteQ_or _ _,
   iteQ_or _ _, iteQ_or _ _⟩

lemma or_bounds {a k : ℚ} (h : a = 0 ∨ a = k) (hk : 0 ≤ k) : 0 ≤ a ∧ a ≤ k := by
  rcases h with h | h <;> rw [h] <;> constructor <;> linarith

/-- C7: for every input series, the total score equals the sum of the nine
breakdown entries, each entry is either `0` or its rule's fixed maximum
(15 for revenue and eps, 10 for the other seven), and the total lies
between 0 and 100. -/
theorem C7_score_result_invariant (d : FinancialData) :
    (calculate_score d).total_score =
      (calculate_score d).breakdown.revenue + (calculate_score d).breakdown.eps +
      (calculate_score d).breakdown.total_assets + (calculate_score d).breakdown.operating_cf +
      (calculate_score d).breakdown.cash_equivalents + (calculate_score d).breakdown.roe +
      (calculate_score d).breakdown.equity_ratio + (calculate_score d).breakdown.dividend_ps +
      (calculate_score d).breakdown.dividend_payout_ratio ∧
    ((calculate_score d).breakdown.revenue = 0 ∨ (calculate_score d).breakdown.revenue = 15) ∧
    ((calculate_score d).breakdown.eps = 0 ∨ (calculate_score d).breakdown.eps = 15) ∧
    ((calculate_score d).breakdown.total_assets = 0 ∨
      (calculate_score d).breakdown.total_assets = 10) ∧
    ((calculate_score d).breakdown.operating_cf = 0 ∨
      (calculate_score d).breakdown.operating_cf = 10) ∧
    ((calculate_score d).breakdown.cash_equivalents = 0 ∨
      (calculate_score d).breakdown.cash_equivalents = 10) ∧
    ((calculate_score d).breakdown.roe = 0 ∨ (calculate_score d).breakdown.roe = 10) ∧
    ((calculate_score d).breakdown.equity_ratio = 0 ∨
      (calculate_score d).breakdown.equity_ratio = 10) ∧
    ((calculate_score d).breakdown.dividend_ps = 0 ∨
      (calculate_score d).breakdown.dividend_ps = 10) ∧
    ((calculate_score d).breakdown.dividend_payout_ratio = 0 ∨
      (calculate_score d).breakdown.dividend_payout_ratio = 10) ∧
    0 ≤ (calculate_score d).total_score ∧ (calculate_score d).total_score ≤ 100 := by
  by_cases hlen : d.fiscal_years.length < 2
  · simp [calculate_score, hlen, Breakdown.zero]
  · have hb : (calculate_score d).breakdown = scoreBreakdown d := by
      simp [calculate_score, hlen]
    have ht : (calculate_score d).total_score = (scoreBreakdown d).total := by
      simp [calculate_score, hlen]
    obtain ⟨v1, v2, v3, v4, v5, v6, v7, v8, v9⟩ := sb_vals d
    have b1 := or_bounds v1 (by norm_num)
    have b2 := or_bounds v2 (by norm_num)
    have b3 := or_bounds v3 (by norm_num)
    have b4 := or_bounds v4 (by norm_num)
    have b5 := or_bounds v5 (by norm_num)
    have b6 := or_bounds v6 (by norm_num)
    have b7 := or_bounds v7 (by norm_num)
    have b8 := or_bounds v8 (by norm_num)
    have b9 := or_bounds v9 (by norm_num)
    rw [hb, ht]
    refine ⟨rfl, v1, v2, v3, v4, v5, v6, v7, v8, v9, ?_, ?_⟩ <;> unfold Breakdown.total <;>
      linarith [b1.1, b1.2, b2.1, b2.2, b3.1, b3.2, b4.1, b4.2, b5.1, b5.2, b6.1, b6.2,
        b7.1, b7.2, b8.1, b8.2, b9.1, b9.2]

/-- C2: for every series whose `fiscal_years` has length strictly below 2,
`calculate_score` returns total score `0` and all nine breakdown entries
`0` (it is a total function, so no exception can be raised). -/
theorem C2_insufficient_history (d : FinancialData)
    (h : d.fiscal_years.length < 2) :
    (calculate_score d).total_score = 0 ∧
    (calculate_score d).breakdown.revenue = 0 ∧
    (calculate_score d).breakdown.eps = 0 ∧
    (calculate_score d).breakdown.total_assets = 0 ∧
    (calculate_score d).breakdown.operating_cf = 0 ∧
    (calculate_score d).breakdown.cash_equivalents = 0 ∧
    (calculate_score d).breakdown.roe = 0 ∧
    (calculate_score d).breakdown.equity_ratio = 0 ∧
    (calculate_score d).breakdown.dividend_ps = 0 ∧
    (calculate_score d).breakdown.dividend_payout_ratio = 0 := by
  simp [calculate_score, h, Breakdown.zero]

/-- C1: every trend-up rule awards its points only for a strictly positive
least-squares slope, so a slope of exactly `0` scores `0` for that rule;
every threshold rule is inclusive, so a series sitting exactly at the
threshold earns the rule's full points (given at least two fiscal years,
so that the threshold rules are reached at all). -/
theorem C1_boundary_policy (d : FinancialData) :
    (get_slope d.revenue ≤ 0 → (calculate_score d).breakdown.revenue = 0) ∧
    (get_slope d.eps ≤ 0 → (calculate_score d).breakdown.eps = 0) ∧
    (get_slope d.total_assets ≤ 0 → (calculate_score d).breakdown.total_assets = 0) ∧
    (get_slope d.operating_cf ≤ 0 → (calculate_score d).breakdown.operating_cf = 0) ∧
    (get_slope d.cash_equivalents ≤ 0 → (calculate_score d).breakdown.cash_equivalents = 0) ∧
    (get_slope d.dividend_ps ≤ 0 → (calculate_score d).breakdown.dividend_ps = 0) ∧
    (2 ≤ d.fiscal_years.length →
      ((∀ v ∈ d.roe, v = 7) → (calculate_score d).breakdown.roe = 10) ∧
      ((∀ v ∈ d.equity_ratio, v = 50) → (calculate_score d).breakdown.equity_ratio = 10) ∧
      ((∀ v ∈ d.dividend_payout_ratio, v = 40) →
        (calculate_score d).breakdown.dividend_payout_ratio = 10)) := by
  by_cases hlen : d.fiscal_years.length < 2
  · exact ⟨fun _ => by simp [calculate_score, hlen, Breakdown.zero],
      fun _ => by simp [calculate_score, hlen, Breakdown.zero],
      fun _ => by simp [calculate_score, hlen, Breakdown.zero],
      fun _ => by simp [calculate_score, hlen, Breakdown.zero],
      fun _ => by simp [calculate_score, hlen, Breakdown.zero],
      fun _ => by simp [calculate_score, hlen, Breakdown.zero],
      fun h2 => absurd h2 (by omega)⟩
  · have hb : (calculate_score d).breakdown = scoreBreakdown d := by
      simp [calculate_score, hlen]
    rw [hb]
    refine ⟨fun h => by simp [scoreBreakdown, rsu_false_of_slope_nonpos h],
      fun h => by simp [scoreBreakdown, rsu_false_of_slope_nonpos h],
      fun h => by simp [scoreBreakdown, rsu_false_of_slope_nonpos h],
      fun h => by simp [scoreBreakdown, rsu_false_of_slope_nonpos h],
      fun h => by simp [scoreBreakdown, rsu_false_of_slope_nonpos h],
      fun h => by simp [scoreBreakdown, rsu_false_of_slope_nonpos h],
      fun _ => ⟨fun h => ?_, fun h => ?_, fun h => ?_⟩⟩
    · have hall : d.roe.all (fun v => (7:ℚ) ≤ v) = true := by
        rw [List.all_eq_true]; intro v hv; rw [h v hv]; norm_num
      simp [scoreBreakdown, hall]
    · have hall : d.equity_ratio.all (fun v => (50:ℚ) ≤ v) = true := by
        rw [List.all_eq_true]; intro v hv; rw [h v hv]; norm_num
      simp [scoreBreakdown, hall]
    · have hall : d.dividend_payout_ratio.all (fun v => v ≤ (40:ℚ)) = true := by
        rw [List.all_eq_true]; intro v hv; rw [h v hv]; norm_num
      simp [scoreBreakdown, hall]

/-- Witness for C1: on `exFlat`, every trend rule scores `0` (slope exactly
`0`) and every threshold rule scores its maximum (values exactly at the
inclusive threshold). -/
theorem C1_boundary_policy_witness :
    (calculate_score exFlat).breakdown.revenue = 0 ∧
    (calculate_score exFlat).breakdown.eps = 0 ∧
    (calculate_score exFlat).breakdown.total_assets = 0 ∧
    (calculate_score exFlat).breakdown.operating_cf = 0 ∧
    (calculate_score exFlat).breakdown.cash_equivalents = 0 ∧
    (calculate_score exFlat).breakdown.dividend_ps = 0 ∧
    (calculate_score exFlat).breakdown.roe = 10 ∧
    (calculate_score exFlat).breakdown.equity_ratio = 10 ∧
    (calculate_score exFlat).breakdown.dividend_payout_ratio = 10 := by
  obtain ⟨t1, t2, t3, t4, t5, t6, tth⟩ := C1_boundary_policy exFlat
  obtain ⟨th1, th2, th3⟩ := tth (by simp [exFlat])
  exact ⟨t1 (by norm_num [exFlat, get_slope, List.range_succ]),
    t2 (by norm_num [exFlat, get_slope, List.range_succ]),
    t3 (by norm_num [exFlat, get_slope, List.range_succ]),
    t4 (by norm_num [exFlat, get_slope, List.range_succ]),
    t5 (by norm_num [exFlat, get_slope, List.range_succ]),
    t6 (by norm_num [exFlat, get_slope, List.range_succ]),
    th1 (by intro v hv; simp [exFlat] at hv; simp [hv]),
    th2 (by intro v hv; simp [exFlat] at hv; simp [hv]),
    th3 (by intro v hv; simp [exFlat] at hv; simp [hv])⟩

/-- C9: with at least two fiscal years, an empty `roe` sequence earns the
roe rule's full 10 points vacuously, and likewise the equity-ratio and
payout-ratio rules on their empty sequences: the every-value check over an
empty list is true, so a cached series with metric lists shorter than
`fiscal_years` can earn threshold points with no data. -/
theorem C9_vacuous_threshold_pass (d : FinancialData)
    (h2 : 2 ≤ d.fiscal_years.length) :
    (d.roe = [] → (calculate_score d).breakdown.roe = 10) ∧
    (d.equity_ratio = [] → (calculate_score d).breakdown.equity_ratio = 10) ∧
    (d.dividend_payout_ratio = [] →
      (calculate_score d).breakdown.dividend_payout_ratio = 10) := by
  have hlen : ¬ d.fiscal_years.length < 2 := by omega
  have hb : (calculate_score d).breakdown = scoreBreakdown d := by
    simp [calculate_score, hlen]
  rw [hb]
  exact ⟨fun h => by simp [scoreBreakdown, h],
    fun h => by simp [scoreBreakdown, h],
    fun h => by simp [scoreBreakdown, h]⟩

/-- Witness for C9: the three threshold rules award their maxima on a
series carrying no threshold data at all. -/
theorem C9_vacuous_threshold_pass_witness :
    (calculate_score exEmptyThresholds).breakdown.roe = 10 ∧
    (calculate_score exEmptyThresholds).breakdown.equity_ratio = 10 ∧
    (calculate_score exEmptyThresholds).breakdown.dividend_payout_ratio = 10 := by
  obtain ⟨h1, h2, h3⟩ :=
    C9_vacuous_threshold_pass exEmptyThresholds (by simp [exEmptyThresholds])
  exact ⟨h1 rfl, h2 rfl, h3 rfl⟩

/-! ## Claim theorems: Value Normalizer -/

/-- C5: the Value Normalizer strips thousands-separator commas
(`"1,234"` gives `1234.0`), maps the dash sentinels and the empty token to
`0.0`, multiplies by `10^8` for the hundred-million glyph (`"5億"` gives
`500000000.0`), and returns `0.0` instead of raising whenever the remainder
after unit-glyph stripping fails the floating-point parse. -/
theorem C5_value_normalizer :
    parse_value "1,234" = 1234 ∧
    parse_value "-" = 0 ∧ parse_value "" = 0 ∧ parse_value "－" = 0 ∧
    parse_value "5億" = 500000000 ∧
    ∀ text : String, pyFloatChars (unitStrip (commaFree text)).1 = none →
      parse_value text = 0 := by
  refine ⟨?_, by simp [parse_value], by simp [parse_value], by simp [parse_value], ?_, ?_⟩
  · simp [parse_value, pyFloatChars, parseUnsigned, mantissaCont, expPart, signDigits,
      unitStrip, commaFree, removeChar, hasSub, beginsWith, natOfDigits, digVal]
  · simp [parse_value, pyFloatChars, parseUnsigned, mantissaCont, expPart, signDigits,
      unitStrip, commaFree, removeChar, hasSub, beginsWith, natOfDigits, digVal]
    norm_num
  · intro text h
    rw [parse_value]
    split_ifs with hs
    · rfl
    · rw [h]

/-- Witness for C5's universal parse-failure conjunct at the concrete
unparsable token `"abc"`. -/
theorem C5_value_normalizer_witness : parse_value "abc" = 0 :=
  C5_value_normalizer.2.2.2.2.2 "abc" (by decide)

/-- C10: exactly one unit glyph is stripped, the trillion glyph having first
priority; a token whose remainder after trillion-stripping still carries a
further unit glyph fails the float parse, so the normalizer returns `0.0`
rather than combining the multipliers. -/
theorem C10_single_glyph_stripping (text : String)
    (hT : hasSub (commaFree text) ['兆'] = true)
    (hMix : hasSub (removeChar '兆' (commaFree text)) ['億'] = true ∨
            hasSub (removeChar '兆' (commaFree text)) ['万'] = true ∨
            hasSub (removeChar '兆' (commaFree text)) ['%'] = true) :
    unitStrip (commaFree text) = (removeChar '兆' (commaFree text), 1000000000000) ∧
    pyFloatChars (removeChar '兆' (commaFree text)) = none ∧
    parse_value text = 0 := by
  have hu : unitStrip (commaFree text) = (removeChar '兆' (commaFree text), 1000000000000) := by
    rw [unitStrip, if_pos hT]
  have hnone : pyFloatChars (removeChar '兆' (commaFree text)) = none := by
    rcases hMix with h | h | h <;>
      exact pyFloatChars_none_of_mem (mem_of_hasSub_singleton h) (by decide)
  refine ⟨hu, hnone, ?_⟩
  rw [parse_value]
  split_ifs with hs
  · rfl
  · rw [hu]
    simp [hnone]

/-- Witness for C10 at the mixed token `"1兆5億"`. -/
theorem C10_single_glyph_stripping_witness :
    unitStrip (commaFree "1兆5億") = (removeChar '兆' (commaFree "1兆5億"), 1000000000000) ∧
    pyFloatChars (removeChar '兆' (commaFree "1兆5億")) = none ∧
    parse_value "1兆5億" = 0 :=
  C10_single_glyph_stripping "1兆5億" (by decide) (Or.inl (by decide))

/-! ## Claim theorems: Table Locator -/

/-- C3: the Table Locator scans the document's tables in order, returns the
first table containing the year-axis marker in its first row together with
the header map resolved from that first row, and fails with the
table-not-found error (no fallback) exactly when no table qualifies. -/
theorem C3_table_locator (tables : List (List (List String))) :
    (findTable tables = .error "Financial table not found" ↔
      ∀ t ∈ tables, qualifies t = false) ∧
    (∀ t hm, findTable tables = .ok (t, hm) →
      qualifies t = true ∧ hm = buildHeaderMap (headerCols t) ∧
      ∃ i : ℕ, tables[i]? = some t ∧
        ∀ j : ℕ, j < i → ∀ u : List (List String), tables[j]? = some u →
          qualifies u = false) := by
  induction tables with
  | nil =>
    constructor
    · simp [findTable]
    · intro t hm h
      simp [findTable] at h
  | cons a ts ih =>
    by_cases ha : qualifies a
    · constructor
      · rw [findTable, if_pos ha]
        constructor
        · intro h; exact absurd h (by simp)
        · intro h
          have := h a (by simp)
          rw [ha] at this
          exact absurd this (by simp)
      · intro t hm h
        rw [findTable, if_pos ha] at h
        have ht : a = t ∧ buildHeaderMap (headerCols a) = hm := by
          have := Except.ok.inj h
          exact ⟨congrArg Prod.fst this, congrArg Prod.snd this⟩
        obtain ⟨h1, h2⟩ := ht
        subst h1
        refine ⟨ha, h2.symm, 0, by simp, by omega⟩
    · have hfa : qualifies a = false := by simp [ha]
      constructor
      · rw [findTable, if_neg ha]
        rw [ih.1]
        constructor
        · intro h t htm
          rcases List.mem_cons.mp htm with h1 | h1
          · subst h1; exact hfa
          · exact h t h1
        · intro h t htm
          exact h t (List.mem_cons_of_mem _ htm)
      · intro t hm h
        rw [findTable, if_neg ha] at h
        obtain ⟨hq, hhm, i, hi, hmin⟩ := ih.2 t hm h
        refine ⟨hq, hhm, i + 1, by simpa using hi, ?_⟩
        intro j hj u hu
        match j with
        | 0 =>
          simp at hu
          rw [← hu]; exact hfa
        | j + 1 =>
          exact hmin j (by omega) u (by simpa using hu)

/-- Witness for C3: on the concrete two-table document `exTables` the
locator skips the unqualifying first table and selects the second with its
resolved header. -/
theorem C3_table_locator_witness :
    qualifies [["年度", "売上高", "EPS"], ["2023", "100", "5"]] = true ∧
    buildHeaderMap ["年度", "売上高", "EPS"] =
      buildHeaderMap (headerCols [["年度", "売上高", "EPS"], ["2023", "100", "5"]]) ∧
    ∃ i : ℕ, exTables[i]? = some [["年度", "売上高", "EPS"], ["2023", "100", "5"]] ∧
      ∀ j : ℕ, j < i → ∀ u : List (List String), exTables[j]? = some u →
        qualifies u = false :=
  (C3_table_locator exTables).2 [["年度", "売上高", "EPS"], ["2023", "100", "5"]]
    (buildHeaderMap ["年度", "売上高", "EPS"]) (by rfl)

/-! ## Claim theorems: Header Resolver -/

/-- C4: the Header Resolver is first-match-wins in both axes: a metric is
bound to column `i` exactly when the cell at `i` is the leftmost one
containing one of its alias substrings, so once bound it is never rebound
by a later matching column. Binding is independent per metric, so when one
column is the first match of two metrics both are bound to it — in
particular the metric earlier in the fixed iteration order claims the
column and keeps it. -/
theorem C4_header_resolver (cols : List String) (m : Metric) (i : ℕ) :
    (buildHeaderMap cols).find m = some i ↔
      (∃ c, cols[i]? = some c ∧ metricMatches m c = true ∧
        ∀ j : ℕ, j < i → ∀ c2, cols[j]? = some c2 → metricMatches m c2 = false) := by
  rw [buildHeaderMap_find]
  exact firstMatch_eq_some_iff m cols i

/-! ## Claim theorems: Series Builder -/

/-- C6: every one of the nine metric sequences of a built series has length
exactly `len(fiscal_years)`; an unbound metric yields `0.0` for every
emitted year; and a row with fewer than `maxIndex + 1` cells is skipped
entirely, contributing neither a year label nor metric values. -/
theorem C6_series_builder_lengths (ticker : String) (hm : HeaderMap)
    (rows : List (List String)) :
    (∀ m, ((buildSeries ticker hm rows).metric m).length =
      (buildSeries ticker hm rows).fiscal_years.length) ∧
    (∀ m, hm.find m = none →
      (buildSeries ticker hm rows).metric m =
        List.replicate (buildSeries ticker hm rows).fiscal_years.length 0) ∧
    (∀ r rs, r.length ≤ maxIdx hm → collectRows hm (r :: rs) = collectRows hm rs) := by
  refine ⟨?_, ?_, ?_⟩
  · intro m
    rw [buildSeries_metric, buildSeries_years, (collectRows_eq hm rows).2 m,
      (collectRows_eq hm rows).1]
    simp
  · intro m hfind
    have hz : ∀ r, rowValue hm r m = 0 := by
      intro r
      rw [rowValue, hfind]
    rw [buildSeries_metric, buildSeries_years, (collectRows_eq hm rows).2 m,
      (collectRows_eq hm rows).1]
    rw [List.map_congr_left (fun r _ => hz r)]
    simp [List.map_const]
  · intro r rs hle
    rw [collectRows_consE, if_pos hle]

/-- Witness for C6 on concrete rows with a short (skipped) row and an
unbound metric. -/
theorem C6_series_builder_lengths_witness :
    ((buildSeries "X" exHeaderMap exRows).metric Metric.eps).length =
      (buildSeries "X" exHeaderMap exRows).fiscal_years.length ∧
    (buildSeries "X" exHeaderMap exRows).metric Metric.eps =
      List.replicate (buildSeries "X" exHeaderMap exRows).fiscal_years.length 0 ∧
    collectRows exHeaderMap (["x"] :: [["2022", "90"]]) =
      collectRows exHeaderMap [["2022", "90"]] := by
  obtain ⟨hlen, hzero, hskip⟩ := C6_series_builder_lengths "X" exHeaderMap exRows
  exact ⟨hlen Metric.eps, hzero Metric.eps (by decide),
    hskip ["x"] [["2022", "90"]] (by decide)⟩

/-- C8: both the year-label sequence and all nine metric sequences of the
final series are exactly the reverses of the sequences in collection (row)
order, so a newest-first raw table yields an oldest-first
`fiscal_years`. -/
theorem C8_chronology_reversal (ticker : String) (hm : HeaderMap)
    (rows : List (List String)) :
    (buildSeries ticker hm rows).fiscal_years =
      ((rows.filter (fun r => decide (maxIdx hm < r.length))).map
        (fun r => r.headD "")).reverse ∧
    ∀ m, (buildSeries ticker hm rows).metric m =
      ((rows.filter (fun r => decide (maxIdx hm < r.length))).map
        (fun r => rowValue hm r m)).reverse := by
  constructor
  · rw [buildSeries_years, (collectRows_eq hm rows).1]
  · intro m
    rw [buildSeries_metric, (collectRows_eq hm rows).2 m]

/-- Witness for C2 at a concrete one-year series. -/
theorem C2_insufficient_history_witness :
    (calculate_score exShort).total_score = 0 ∧
    (calculate_score exShort).breakdown.revenue = 0 ∧
    (calculate_score exShort).breakdown.eps = 0 ∧
    (calculate_score exShort).breakdown.total_assets = 0 ∧
    (calculate_score exShort).breakdown.operating_cf = 0 ∧
    (calculate_score exShort).breakdown.cash_equivalents = 0 ∧
    (calculate_score exShort).breakdown.roe = 0 ∧
    (calculate_score exShort).breakdown.equity_ratio = 0 ∧
    (calculate_score exShort).breakdown.dividend_ps = 0 ∧
    (calculate_score exShort).breakdown.dividend_payout_ratio = 0 :=
  C2_insufficient_history exShort (by simp [exShort])

end Kabu
